import Mathlib

/-
Shallow embedding of the TL2 software-transactional-memory engine from
src/src/tl2.rs (repository ytakano/tl2), together with theorems settling the
frozen claims about its specification.

Modelling conventions:
* 64-bit machine words (`u64`) are `Nat`s; wrap-around arithmetic is written
  with an explicit `% 2 ^ 64`.  Bitwise operations (`&&&`, `|||`, `<<<`, `>>>`)
  are the `Nat` bitwise operations, which agree with the `u64` ones on values
  below `2 ^ 64`.
* A Rust panic (a failed `assert_eq!` or an out-of-bounds index / slice) is the
  `PanicOr.panic` value; every fallible operation returns `PanicOr`.
* `HashSet<usize>` (the read set) is a duplicate-free `List Nat` with
  membership-tested insertion; `HashMap<usize, [u8; 8]>` (the write set) is an
  association list with replacing insertion; `Vec<u8>` / `Vec<AtomicU64>` are
  `List Nat`.  Iteration order of the hash containers is not observable in any
  property proved here.
* A user transaction body (`F: Fn(&mut WriteTrans) -> STMResult<R>`) can
  interact with the transaction only through `load` and `store`; it is embedded
  as a `Prog` value, a tree of `load`/`store` calls ending in an `STMResult`.
* The drivers `write_transaction` / `read_transaction` loop; one iteration of
  the loop is embedded as `writeAttempt` / `readAttempt`, whose `Outcome.loop`
  value means "the Rust loop would run another iteration (constructing a fresh
  transaction) with this shared memory", and whose `Outcome.done` value means
  "the driver returns this `Option` result, leaving this shared memory".
-/

namespace TL2

/-- Embeds `const STRIPE_SIZE: usize = 8` (tl2.rs line 6). -/
def STRIPE_SIZE : Nat := 8

/-- Embeds `const MEM_SIZE: usize = 512` (tl2.rs line 7). -/
def MEM_SIZE : Nat := 512

/-- A stripe value `[u8; STRIPE_SIZE]`. -/
abbrev Stripe := List Nat

/-- Result of a Rust computation that may panic. -/
inductive PanicOr (α : Type) where
  | panic : PanicOr α
  | ok : α → PanicOr α
deriving DecidableEq

/-- Embeds `struct Memory` (tl2.rs lines 27-32): flat byte buffer, per-stripe
versioned-lock words, global version clock, and the shift mapping a byte
address to its stripe index. -/
structure Memory where
  mem : List Nat
  lock_ver : List Nat
  global_clock : Nat
  shift_size : Nat
deriving DecidableEq

/-- Embeds `pub enum STMResult<T>` (tl2.rs lines 34-38). -/
inductive STMResult (ρ : Type) where
  | Ok : ρ → STMResult ρ
  | Retry : STMResult ρ
  | Abort : STMResult ρ
deriving DecidableEq

/-- The `loop { if STRIPE_SIZE & (1 << shift) > 0 { break } shift += 1 }` in
`Memory::new` (tl2.rs lines 45-51).  The Rust loop has no bound; shifting a
`usize` by 64 or more is itself a panic, so 64 iterations bound every run that
terminates.  With `STRIPE_SIZE = 8` the loop stops at shift 3. -/
def shiftLoop : Nat → Nat → Nat
  | 0, shift => shift
  | fuel + 1, shift =>
    if STRIPE_SIZE &&& (1 <<< shift) > 0 then shift else shiftLoop fuel (shift + 1)

/-- Embeds `Memory::new` (tl2.rs lines 41-63): zero buffer of `MEM_SIZE` bytes, one
zeroed lock word per stripe (`MEM_SIZE >> shift` of them), clock 0.  It takes
no parameters and cannot fail. -/
def Memory.new : Memory :=
  { mem := List.replicate MEM_SIZE 0
    lock_ver := List.replicate (MEM_SIZE >>> shiftLoop 64 0) 0
    global_clock := 0
    shift_size := shiftLoop 64 0 }

/-- Embeds `Memory::test_not_modify` (tl2.rs lines 65-68): load the stripe's lock
word and require `n <= rv`.  Indexing `lock_ver[addr >> shift]` out of range
panics. -/
def Memory.test_not_modify (m : Memory) (addr rv : Nat) : PanicOr Bool :=
  match m.lock_ver.get? (addr >>> m.shift_size) with
  | none => .panic
  | some n => .ok (decide (n ≤ rv))

/-- Embeds `Memory::get_addr_ver` (tl2.rs lines 70-73): the lock word with the write
lock bit masked off, `n & !(1 << 63)`; the `u64` complement of the top bit is
the low-63-bit mask `(1 <<< 63) - 1`. -/
def Memory.get_addr_ver (m : Memory) (addr : Nat) : PanicOr Nat :=
  match m.lock_ver.get? (addr >>> m.shift_size) with
  | none => .panic
  | some n => .ok (n &&& ((1 <<< 63) - 1))

/-- Embeds `Memory::lock_addr` (tl2.rs lines 75-91): fetch-update on the stripe's
lock word; if bit 63 is clear, set it and succeed, otherwise fail leaving the
word unchanged. -/
def Memory.lock_addr (m : Memory) (addr : Nat) : PanicOr (Bool × Memory) :=
  match m.lock_ver.get? (addr >>> m.shift_size) with
  | none => .panic
  | some val =>
    if val &&& (1 <<< 63) = 0 then
      .ok (true,
        { m with lock_ver := m.lock_ver.set (addr >>> m.shift_size) (val ||| (1 <<< 63)) })
    else .ok (false, m)

/-- Embeds `Memory::inc_global_clock` (tl2.rs lines 93-95): `fetch_add(1)` on the
clock, returning the previous value; a `u64` fetch-add wraps modulo `2 ^ 64`. -/
def Memory.inc_global_clock (m : Memory) : Nat × Memory :=
  (m.global_clock, { m with global_clock := (m.global_clock + 1) % 2 ^ 64 })

/-- Embeds `Memory::unlock_addr` (tl2.rs lines 97-99): `fetch_and(!(1 << 63))` on the
stripe's lock word, clearing the write-lock bit and keeping the version bits.
It is only ever invoked on addresses recorded in `locked`, which were locked
successfully and hence index in range; `List.set` is a no-op out of range. -/
def Memory.unlock_addr (m : Memory) (addr : Nat) : Memory :=
  { m with
    lock_ver := m.lock_ver.set (addr >>> m.shift_size)
      ((m.lock_ver.getD (addr >>> m.shift_size) 0) &&& ((1 <<< 63) - 1)) }

/-- Embeds `HashSet::insert` for the read set: duplicates collapse. -/
def rsInsert (addr : Nat) (s : List Nat) : List Nat :=
  if addr ∈ s then s else addr :: s

/-- Embeds `HashMap::get` for the write set. -/
def wsLookup : List (Nat × Stripe) → Nat → Option Stripe
  | [], _ => none
  | (a, s) :: rest, addr => if a = addr then some s else wsLookup rest addr

/-- Embeds `HashMap::insert` for the write set: a later store to the same address
overwrites the earlier one. -/
def wsInsert (addr : Nat) (s : Stripe) : List (Nat × Stripe) → List (Nat × Stripe)
  | [] => [(addr, s)]
  | (a, w) :: rest =>
    if a = addr then (addr, s) :: rest else (a, w) :: wsInsert addr s rest

/-- Embeds `struct WriteTrans` (tl2.rs lines 102-109).  The `mem: &'a mut Memory`
reference is embedded by letting the transaction carry the `Memory` value for
the duration of the attempt. -/
structure WriteTrans where
  read_ver : Nat
  read_set : List Nat
  write_set : List (Nat × Stripe)
  locked : List Nat
  is_abort : Bool
  mem : Memory
deriving DecidableEq

/-- Embeds `WriteTrans::new` (tl2.rs lines 112-121): empty sets, not aborted,
`read_ver` sampled from the global clock. -/
def WriteTrans.new (m : Memory) : WriteTrans :=
  { read_ver := m.global_clock
    read_set := []
    write_set := []
    locked := []
    is_abort := false
    mem := m }

/-- The 8-byte copy out of the backing buffer performed by `load`
(tl2.rs lines 146-152): a local `[0; STRIPE_SIZE]` zipped with the slice
`mem[addr .. addr + STRIPE_SIZE]`; the slice bound is checked by the caller. -/
def stripeAt (mem : List Nat) (addr : Nat) : Stripe :=
  (List.range STRIPE_SIZE).map (fun i => mem.getD (addr + i) 0)

/-- Embeds `WriteTrans::load` (tl2.rs lines 123-163): an aborted transaction returns
`None` at once; then `assert_eq!(addr & (STRIPE_SIZE - 1), 0)`; the address is
recorded in the read set; a write-set hit returns the buffered stripe;
otherwise the TL2 pre-validate / copy / post-validate sequence runs, marking
the transaction aborted on a validation failure.  Slicing the buffer out of
range panics. -/
def WriteTrans.load (t : WriteTrans) (addr : Nat) : PanicOr (Option Stripe × WriteTrans) :=
  if t.is_abort then .ok (none, t)
  else if addr &&& (STRIPE_SIZE - 1) ≠ 0 then .panic
  else
    match wsLookup t.write_set addr with
    | some s => .ok (some s, { t with read_set := rsInsert addr t.read_set })
    | none =>
      match t.mem.test_not_modify addr t.read_ver with
      | .panic => .panic
      | .ok false =>
        .ok (none, { t with read_set := rsInsert addr t.read_set, is_abort := true })
      | .ok true =>
        if addr + STRIPE_SIZE ≤ t.mem.mem.length then
          match t.mem.test_not_modify addr t.read_ver with
          | .panic => .panic
          | .ok false =>
            .ok (none, { t with read_set := rsInsert addr t.read_set, is_abort := true })
          | .ok true =>
            .ok (some (stripeAt t.mem.mem addr), { t with read_set := rsInsert addr t.read_set })
        else .panic

/-- Embeds `WriteTrans::store` (tl2.rs lines 165-168): `assert_eq!(addr &
(STRIPE_SIZE - 1), 0)` and then insert into the write set.  There is no range
check and shared memory is untouched. -/
def WriteTrans.store (t : WriteTrans) (addr : Nat) (s : Stripe) : PanicOr WriteTrans :=
  if addr &&& (STRIPE_SIZE - 1) ≠ 0 then .panic
  else .ok { t with write_set := wsInsert addr s t.write_set }

/-- The loop body of `WriteTrans::lock_write_set` (tl2.rs lines 170-179):
try to lock each write-set address in turn, pushing each success onto
`locked`; the first failure stops with `false`, keeping the locks taken so
far. -/
def lockLoop : Memory → List Nat → List (Nat × Stripe) → PanicOr (Bool × Memory × List Nat)
  | m, lk, [] => .ok (true, m, lk)
  | m, lk, (a, _) :: rest =>
    match m.lock_addr a with
    | .panic => .panic
    | .ok (true, m') => lockLoop m' (lk ++ [a]) rest
    | .ok (false, m') => .ok (false, m', lk)

/-- Embeds `WriteTrans::lock_write_set` (tl2.rs lines 170-179). -/
def WriteTrans.lock_write_set (t : WriteTrans) : PanicOr (Bool × WriteTrans) :=
  match lockLoop t.mem t.locked t.write_set with
  | .panic => .panic
  | .ok (b, m', lk') => .ok (b, { t with mem := m', locked := lk' })

/-- The loop body of `WriteTrans::validate_read_set` (tl2.rs lines 181-195):
an address also in the write set must have version bits `≤ read_ver` (the lock
bit, held by us, is masked off); any other address must pass
`test_not_modify`. -/
def validateLoop (t : WriteTrans) : List Nat → PanicOr Bool
  | [] => .ok true
  | addr :: rest =>
    if (wsLookup t.write_set addr).isSome then
      match t.mem.get_addr_ver addr with
      | .panic => .panic
      | .ok ver => if t.read_ver < ver then .ok false else validateLoop t rest
    else
      match t.mem.test_not_modify addr t.read_ver with
      | .panic => .panic
      | .ok false => .ok false
      | .ok true => validateLoop t rest

/-- Embeds `WriteTrans::validate_read_set` (tl2.rs lines 181-195). -/
def WriteTrans.validate_read_set (t : WriteTrans) : PanicOr Bool :=
  validateLoop t t.read_set

/-- The first loop of `WriteTrans::commit` (tl2.rs lines 198-203): copy each
write-set stripe into the backing buffer, `mem[addr .. addr + STRIPE_SIZE]`
zipped with the stripe value; slicing out of range panics. -/
def commitWriteLoop : List Nat → List (Nat × Stripe) → PanicOr (List Nat)
  | mem, [] => .ok mem
  | mem, (a, s) :: rest =>
    if a + STRIPE_SIZE ≤ mem.length then
      commitWriteLoop
        (((List.range STRIPE_SIZE).zip s).foldl (fun acc iv => acc.set (a + iv.1) iv.2) mem)
        rest
    else .panic

/-- The second loop of `WriteTrans::commit` (tl2.rs lines 207-210): store the
commit version into each written stripe's lock word (bit 63 of the version is
clear, so this also releases the lock); indexing out of range panics. -/
def commitVerLoop : List Nat → Nat → Nat → List (Nat × Stripe) → PanicOr (List Nat)
  | lv, _, _, [] => .ok lv
  | lv, shift, ver, (a, _) :: rest =>
    if a >>> shift < lv.length then commitVerLoop (lv.set (a >>> shift) ver) shift ver rest
    else .panic

/-- Embeds `WriteTrans::commit` (tl2.rs lines 197-213): write back the write set,
publish `ver` on every written stripe, clear `locked`. -/
def WriteTrans.commit (t : WriteTrans) (ver : Nat) : PanicOr WriteTrans :=
  match commitWriteLoop t.mem.mem t.write_set with
  | .panic => .panic
  | .ok mem1 =>
    match commitVerLoop t.mem.lock_ver t.mem.shift_size ver t.write_set with
    | .panic => .panic
    | .ok lv1 => .ok { t with mem := { t.mem with mem := mem1, lock_ver := lv1 }, locked := [] }

/-- Embeds `impl Drop for WriteTrans` (tl2.rs lines 216-222): on destruction, every
still-held lock is released; the resulting shared memory is what the next
loop iteration (or the caller) sees. -/
def dropTrans (t : WriteTrans) : Memory :=
  t.locked.foldl Memory.unlock_addr t.mem

/-- Result of one iteration of a driver loop: `loop m` means the Rust `loop`
continues (with shared memory `m`), `done m r` means the driver returns `r`. -/
inductive Outcome (ρ : Type) where
  | loop : Memory → Outcome ρ
  | done : Memory → Option ρ → Outcome ρ
deriving DecidableEq

/-- Steps 6 of `STM::write_transaction` (tl2.rs lines 327-330): commit at
version `ver`, then `return Some(result)`, dropping the transaction (whose
locked list the commit has cleared). -/
def commitResult {ρ : Type} (t2 : WriteTrans) (ver : Nat) (v : ρ) : PanicOr (Outcome ρ) :=
  match t2.commit ver with
  | .panic => .panic
  | .ok t3 => .ok (.done (dropTrans t3) (some v))

/-- Steps 3-6 of `STM::write_transaction` (tl2.rs lines 314-331): lock the
write set (failure → `continue`), fetch-and-add the global clock obtaining the
previous value `prev`, set the commit version `ver = 1 + prev`, then validate
the read set unless `ver == read_ver + 1` (the `&&` short-circuit: validation
runs only when `ver != read_ver + 1`), and finally commit.  Every `continue`
drops the transaction, releasing its locks. -/
def commitPhase {ρ : Type} (tr : WriteTrans) (v : ρ) : PanicOr (Outcome ρ) :=
  match tr.lock_write_set with
  | .panic => .panic
  | .ok (false, tr1) => .ok (.loop (dropTrans tr1))
  | .ok (true, tr1) =>
    let pm := tr1.mem.inc_global_clock
    let tr2 : WriteTrans := { tr1 with mem := pm.2 }
    let ver := (1 + pm.1) % 2 ^ 64
    if ver = (tr2.read_ver + 1) % 2 ^ 64 then commitResult tr2 ver v
    else
      match tr2.validate_read_set with
      | .panic => .panic
      | .ok true => commitResult tr2 ver v
      | .ok false => .ok (.loop (dropTrans tr2))

/-- A user body for a write transaction (`F: Fn(&mut WriteTrans) ->
STMResult<R>`): it can interact with the transaction only through `load` and
`store`, and finally yields an `STMResult`. -/
inductive Prog (ρ : Type) where
  | ret : STMResult ρ → Prog ρ
  | load : Nat → (Option Stripe → Prog ρ) → Prog ρ
  | store : Nat → Stripe → Prog ρ → Prog ρ

/-- Run a write-transaction body against a transaction, threading the
transaction state through every `load` and `store`. -/
def runProg {ρ : Type} : Prog ρ → WriteTrans → PanicOr (WriteTrans × STMResult ρ)
  | .ret r, t => .ok (t, r)
  | .load a k, t =>
    match t.load a with
    | .panic => .panic
    | .ok (v, t') => runProg (k v) t'
  | .store a s q, t =>
    match t.store a s with
    | .panic => .panic
    | .ok t' => runProg q t'

/-- One iteration of the `loop` in `STM::write_transaction` (tl2.rs lines
288-332): construct a fresh transaction, run the body, then interpret the
result — `Abort` returns `None`; `Retry` continues if the transaction aborted
and otherwise returns `None`; `Ok` continues if the transaction aborted and
otherwise enters the commit phase.  Each exit drops the transaction. -/
def writeAttempt {ρ : Type} (m : Memory) (p : Prog ρ) : PanicOr (Outcome ρ) :=
  match runProg p (WriteTrans.new m) with
  | .panic => .panic
  | .ok (t, .Abort) => .ok (.done (dropTrans t) none)
  | .ok (t, .Retry) =>
    if t.is_abort then .ok (.loop (dropTrans t)) else .ok (.done (dropTrans t) none)
  | .ok (t, .Ok v) =>
    if t.is_abort then .ok (.loop (dropTrans t)) else commitPhase t v

/-- Embeds `struct ReadTrans` (tl2.rs lines 224-228); the `&'a Memory` reference is
embedded as a carried `Memory` value, never modified. -/
structure ReadTrans where
  read_ver : Nat
  is_abort : Bool
  mem : Memory
deriving DecidableEq

/-- Embeds `ReadTrans::new` (tl2.rs lines 231-237). -/
def ReadTrans.new (m : Memory) : ReadTrans :=
  { read_ver := m.global_clock, is_abort := false, mem := m }

/-- Embeds `ReadTrans::load` (tl2.rs lines 239-272): like the write-transaction load
but with no read set and no write set. -/
def ReadTrans.load (t : ReadTrans) (addr : Nat) : PanicOr (Option Stripe × ReadTrans) :=
  if t.is_abort then .ok (none, t)
  else if addr &&& (STRIPE_SIZE - 1) ≠ 0 then .panic
  else
    match t.mem.test_not_modify addr t.read_ver with
    | .panic => .panic
    | .ok false => .ok (none, { t with is_abort := true })
    | .ok true =>
      if addr + STRIPE_SIZE ≤ t.mem.mem.length then
        match t.mem.test_not_modify addr t.read_ver with
        | .panic => .panic
        | .ok false => .ok (none, { t with is_abort := true })
        | .ok true => .ok (some (stripeAt t.mem.mem addr), t)
      else .panic

/-- A user body for a read transaction: only `load` is available. -/
inductive RProg (ρ : Type) where
  | ret : STMResult ρ → RProg ρ
  | load : Nat → (Option Stripe → RProg ρ) → RProg ρ

/-- Run a read-transaction body. -/
def runRProg {ρ : Type} : RProg ρ → ReadTrans → PanicOr (ReadTrans × STMResult ρ)
  | .ret r, t => .ok (t, r)
  | .load a k, t =>
    match t.load a with
    | .panic => .panic
    | .ok (v, t') => runRProg (k v) t'

/-- One iteration of the `loop` in `STM::read_transaction` (tl2.rs lines
334-360): `Abort` returns `None`; `Retry` continues if aborted and otherwise
returns `None`; `Ok` continues if aborted and otherwise returns `Some`. -/
def readAttempt {ρ : Type} (m : Memory) (p : RProg ρ) : PanicOr (Outcome ρ) :=
  match runRProg p (ReadTrans.new m) with
  | .panic => .panic
  | .ok (t, .Abort) => .ok (.done t.mem none)
  | .ok (t, .Retry) =>
    if t.is_abort then .ok (.loop t.mem) else .ok (.done t.mem none)
  | .ok (t, .Ok v) =>
    if t.is_abort then .ok (.loop t.mem) else .ok (.done t.mem (some v))

/-- Embeds `pub struct STM` (tl2.rs lines 275-277): the facade owns the memory
behind an `UnsafeCell`. -/
structure STM where
  mem : Memory
deriving DecidableEq

/-- Embeds `STM::new` (tl2.rs lines 282-286). -/
def STM.new : STM :=
  { mem := Memory.new }

/-- A fresh write transaction over the fresh memory; the concrete state used
by several witnesses below. -/
def freshW : WriteTrans :=
  WriteTrans.new Memory.new

/-- Looking up an address right after inserting it finds the inserted stripe:
`HashMap::insert` overwrites any earlier mapping. -/
theorem wsLookup_wsInsert_self (ws : List (Nat × Stripe)) (a : Nat) (s : Stripe) :
    wsLookup (wsInsert a s ws) a = some s := by
  induction ws with
  | nil => simp [wsInsert, wsLookup]
  | cons hd tl ih =>
    obtain ⟨b, w⟩ := hd
    by_cases h : b = a
    · simp [wsInsert, h, wsLookup]
    · simp [wsInsert, h, wsLookup, ih]

/-- Lemma: `load` never touches the shared memory, the locked list, the sampled
read-version or the write set. -/
theorem load_pres {t : WriteTrans} {addr : Nat} {v : Option Stripe} {t' : WriteTrans}
    (h : t.load addr = .ok (v, t')) :
    t'.mem = t.mem ∧ t'.locked = t.locked ∧ t'.read_ver = t.read_ver ∧
      t'.write_set = t.write_set := by
  unfold WriteTrans.load at h
  split at h
  · cases h; exact ⟨rfl, rfl, rfl, rfl⟩
  · split at h
    · cases h
    · split at h
      · cases h; exact ⟨rfl, rfl, rfl, rfl⟩
      · split at h
        · cases h
        · cases h; exact ⟨rfl, rfl, rfl, rfl⟩
        · split at h
          · split at h
            · cases h
            · cases h; exact ⟨rfl, rfl, rfl, rfl⟩
            · cases h; exact ⟨rfl, rfl, rfl, rfl⟩
          · cases h

/-- Lemma: `store` only changes the write set, and succeeds exactly on aligned
addresses. -/
theorem store_pres {t : WriteTrans} {addr : Nat} {s : Stripe} {t' : WriteTrans}
    (h : t.store addr s = .ok t') :
    addr &&& (STRIPE_SIZE - 1) = 0 ∧
      t' = { t with write_set := wsInsert addr s t.write_set } := by
  unfold WriteTrans.store at h
  split at h
  · cases h
  · next hal => cases h; exact ⟨by simpa using hal, rfl⟩

/-- Running a body never touches the shared memory, the locked list or the
sampled read-version: a body is only loads and stores. -/
theorem runProg_pres {ρ : Type} (p : Prog ρ) :
    ∀ {t t' : WriteTrans} {r : STMResult ρ}, runProg p t = .ok (t', r) →
      t'.mem = t.mem ∧ t'.locked = t.locked ∧ t'.read_ver = t.read_ver := by
  induction p with
  | ret r => intro t t' r' h; cases h; exact ⟨rfl, rfl, rfl⟩
  | load a k ih =>
    intro t t' r h
    simp only [runProg] at h
    split at h
    · cases h
    · next v t1 heq =>
      obtain ⟨h1, h2, h3⟩ := load_pres heq
      obtain ⟨g1, g2, g3⟩ := ih v h
      exact ⟨g1.trans h1, g2.trans h2, g3.trans h3.1⟩
  | store a s q ih =>
    intro t t' r h
    simp only [runProg] at h
    split at h
    · cases h
    · next t1 heq =>
      obtain ⟨_, h2⟩ := store_pres heq
      obtain ⟨g1, g2, g3⟩ := ih h
      subst h2
      exact ⟨g1, g2, g3⟩

/-- Masking with the low-63-bit mask is idempotent. -/
theorem and_mask_and_mask (x : Nat) :
    (x &&& ((1 <<< 63) - 1)) &&& ((1 <<< 63) - 1) = x &&& ((1 <<< 63) - 1) := by
  apply Nat.eq_of_testBit_eq
  intro i
  simp [Nat.testBit_and, Bool.and_assoc]

/-- A value masked to its low 63 bits has bit 63 clear. -/
theorem and_mask_and_top (x : Nat) :
    (x &&& ((1 <<< 63) - 1)) &&& (1 <<< 63) = 0 := by
  apply Nat.eq_of_testBit_eq
  intro i
  simp only [Nat.testBit_and, Nat.shiftLeft_eq, one_mul, Nat.testBit_two_pow_sub_one,
    Nat.testBit_two_pow, Nat.zero_testBit]
  by_cases h : i = 63
  · subst h; simp
  · simp [h, eq_comm]

/-- Lemma: `unlock_addr` leaves the byte buffer, the clock and the shift alone. -/
theorem unlock_addr_frame (m : Memory) (a : Nat) :
    (m.unlock_addr a).mem = m.mem ∧ (m.unlock_addr a).global_clock = m.global_clock ∧
      (m.unlock_addr a).shift_size = m.shift_size :=
  ⟨rfl, rfl, rfl⟩

/-- Lemma: `unlock_addr` preserves the version bits of every lock word. -/
theorem unlock_addr_ver (m : Memory) (a idx : Nat) :
    ((m.unlock_addr a).lock_ver.getD idx 0) &&& ((1 <<< 63) - 1)
      = (m.lock_ver.getD idx 0) &&& ((1 <<< 63) - 1) := by
  unfold Memory.unlock_addr
  by_cases h : a >>> m.shift_size = idx
  · subst h
    by_cases hl : a >>> m.shift_size < m.lock_ver.length
    · simp only [List.getD_eq_getElem?_getD, List.getElem?_set, if_pos rfl, if_pos hl,
        Option.getD_some]
      exact and_mask_and_mask _
    · rw [List.set_eq_of_length_le (Nat.le_of_not_lt hl)]
  · simp [List.getD_eq_getElem?_getD, List.getElem?_set, h]

/-- Lemma: `unlock_addr` clears the write-lock bit of its own stripe. -/
theorem unlock_addr_bit_self (m : Memory) (a : Nat) :
    ((m.unlock_addr a).lock_ver.getD (a >>> m.shift_size) 0) &&& (1 <<< 63) = 0 := by
  unfold Memory.unlock_addr
  by_cases hl : a >>> m.shift_size < m.lock_ver.length
  · simp only [List.getD_eq_getElem?_getD, List.getElem?_set, if_pos rfl, if_pos hl,
      Option.getD_some]
    exact and_mask_and_top _
  · rw [List.set_eq_of_length_le (Nat.le_of_not_lt hl)]
    rw [List.getD_eq_getElem?_getD, List.getElem?_eq_none (Nat.le_of_not_lt hl)]
    simp

/-- Lemma: `unlock_addr` never sets a write-lock bit. -/
theorem unlock_addr_bit_pres (m : Memory) (a idx : Nat)
    (h : (m.lock_ver.getD idx 0) &&& (1 <<< 63) = 0) :
    ((m.unlock_addr a).lock_ver.getD idx 0) &&& (1 <<< 63) = 0 := by
  by_cases he : a >>> m.shift_size = idx
  · subst he; exact unlock_addr_bit_self m a
  · unfold Memory.unlock_addr
    simpa [List.getD_eq_getElem?_getD, List.getElem?_set, he] using h

/-- Releasing a list of locks preserves the shift. -/
theorem unlockFold_shift (l : List Nat) :
    ∀ m : Memory, (l.foldl Memory.unlock_addr m).shift_size = m.shift_size := by
  induction l with
  | nil => intro m; rfl
  | cons a tl ih => intro m; rw [List.foldl_cons, ih]; rfl

/-- Releasing a list of locks preserves the version bits of every lock word. -/
theorem unlockFold_ver (l : List Nat) :
    ∀ (m : Memory) (idx : Nat),
      ((l.foldl Memory.unlock_addr m).lock_ver.getD idx 0) &&& ((1 <<< 63) - 1)
        = (m.lock_ver.getD idx 0) &&& ((1 <<< 63) - 1) := by
  induction l with
  | nil => intro m idx; rfl
  | cons a tl ih => intro m idx; rw [List.foldl_cons, ih, unlock_addr_ver]

/-- Releasing a list of locks never sets a write-lock bit. -/
theorem unlockFold_bit_pres (l : List Nat) :
    ∀ (m : Memory) (idx : Nat), (m.lock_ver.getD idx 0) &&& (1 <<< 63) = 0 →
      ((l.foldl Memory.unlock_addr m).lock_ver.getD idx 0) &&& (1 <<< 63) = 0 := by
  induction l with
  | nil => intro m idx h; exact h
  | cons a tl ih =>
    intro m idx h
    rw [List.foldl_cons]
    exact ih _ idx (unlock_addr_bit_pres m a idx h)

/-- After releasing a list of locks, the write-lock bit of every stripe in the
list is clear. -/
theorem unlockFold_bit_mem (l : List Nat) :
    ∀ (m : Memory) (a : Nat), a ∈ l →
      ((l.foldl Memory.unlock_addr m).lock_ver.getD (a >>> m.shift_size) 0)
        &&& (1 <<< 63) = 0 := by
  induction l with
  | nil => intro m a h; cases h
  | cons b tl ih =>
    intro m a h
    rw [List.foldl_cons]
    rcases List.mem_cons.mp h with h | h
    · subst h
      exact unlockFold_bit_pres tl (m.unlock_addr a) _ (unlock_addr_bit_self m a)
    · exact ih (m.unlock_addr b) a h

/-- Lemma: `lock_addr` leaves the byte buffer, the clock and the shift alone. -/
theorem lock_addr_pres {m : Memory} {a : Nat} {b : Bool} {m' : Memory}
    (h : m.lock_addr a = .ok (b, m')) :
    m'.global_clock = m.global_clock ∧ m'.shift_size = m.shift_size ∧ m'.mem = m.mem := by
  unfold Memory.lock_addr at h
  split at h
  · cases h
  · split at h
    · cases h; exact ⟨rfl, rfl, rfl⟩
    · cases h; exact ⟨rfl, rfl, rfl⟩

/-- The lock-acquisition loop leaves the byte buffer, the clock and the shift
alone. -/
theorem lockLoop_pres (ws : List (Nat × Stripe)) :
    ∀ (m : Memory) (lk : List Nat) {b : Bool} {m' : Memory} {lk' : List Nat},
      lockLoop m lk ws = .ok (b, m', lk') →
      m'.global_clock = m.global_clock ∧ m'.shift_size = m.shift_size ∧ m'.mem = m.mem := by
  induction ws with
  | nil => intro m lk b m' lk' h; cases h; exact ⟨rfl, rfl, rfl⟩
  | cons hd tl ih =>
    intro m lk b m' lk' h
    obtain ⟨a, s⟩ := hd
    simp only [lockLoop] at h
    split at h
    · cases h
    · next m1 heq =>
      obtain ⟨p1, p2, p3⟩ := lock_addr_pres heq
      obtain ⟨g1, g2, g3⟩ := ih m1 _ h
      exact ⟨g1.trans p1, g2.trans p2, g3.trans p3⟩
    · next m1 heq =>
      cases h
      exact lock_addr_pres heq

/-- Lemma: `lock_write_set` changes only the memory's lock words and the locked
list. -/
theorem lock_write_set_pres {t : WriteTrans} {b : Bool} {t1 : WriteTrans}
    (h : t.lock_write_set = .ok (b, t1)) :
    t1.read_ver = t.read_ver ∧ t1.read_set = t.read_set ∧ t1.write_set = t.write_set ∧
      t1.is_abort = t.is_abort ∧ t1.mem.global_clock = t.mem.global_clock := by
  unfold WriteTrans.lock_write_set at h
  split at h
  · cases h
  · next b' m' lk' heq =>
    cases h
    exact ⟨rfl, rfl, rfl, rfl, (lockLoop_pres _ _ _ heq).1⟩

/-- The commit phase for a transaction with an empty write set, no held locks
and an up-to-date read-version: locking succeeds trivially, the fast path
skips validation, the commit writes nothing — but the fetch-and-add has
bumped the global clock by one. -/
theorem commitPhase_emptyWS {ρ : Type} (t : WriteTrans) (v : ρ)
    (hws : t.write_set = []) (hrv : t.read_ver = t.mem.global_clock)
    (hlk : t.locked = []) :
    commitPhase t v =
      .ok (.done { t.mem with global_clock := (t.mem.global_clock + 1) % 2 ^ 64 }
        (some v)) := by
  obtain ⟨rv, rs, ws, lk, ab, m⟩ := t
  simp only at hws hrv hlk
  subst hws hrv hlk
  simp only [commitPhase, WriteTrans.lock_write_set, lockLoop, Memory.inc_global_clock,
    commitResult, WriteTrans.commit, commitWriteLoop, commitVerLoop, dropTrans,
    List.foldl_nil]
  rw [if_pos (by rw [Nat.add_comm])]

/-- A body that ends in `Abort` makes `write_transaction` return `None` with
the shared memory exactly as it was: the body cannot touch memory, no part of
the commit protocol runs, and the transaction holds no locks to release. -/
theorem writeAttempt_abortResult {ρ : Type} (m : Memory) (p : Prog ρ) (t : WriteTrans)
    (h : runProg p (WriteTrans.new m) = .ok (t, .Abort)) :
    writeAttempt m p = .ok (.done m none) := by
  obtain ⟨hm, hlk, _⟩ := runProg_pres p h
  simp only [WriteTrans.new] at hm hlk
  unfold writeAttempt
  simp only [h, dropTrans, hlk, List.foldl_nil, hm]

/-- A write transaction with one successfully held lock (stripe 0, whose lock
word has bit 63 set over version 4); used to witness lock release on drop. -/
def lockedW : WriteTrans :=
  { freshW with
    locked := [0]
    mem := { Memory.new with lock_ver := (List.replicate 64 0).set 0 (2 ^ 63 + 4) } }

/-- A write transaction whose memory clock has advanced to 5 since its
read-version 0 was sampled (as after five concurrent commits); it takes the
slow (validating) commit path. -/
def clockW : WriteTrans :=
  { freshW with mem := { Memory.new with global_clock := 5 } }

/-- C1 (corrected): in both `write_transaction` and `read_transaction`, a body
result of `Retry` makes the driver loop only when the transaction has marked
itself aborted; a `Retry` from a non-aborted transaction makes the driver
return `None` (no result), exactly as `Abort` does. -/
theorem retry_loops_only_on_abort {ρ : Type} :
    (∀ (m : Memory) (p : Prog ρ) (t : WriteTrans),
      runProg p (WriteTrans.new m) = .ok (t, .Retry) →
        writeAttempt m p =
          if t.is_abort then .ok (.loop (dropTrans t))
          else .ok (.done (dropTrans t) none)) ∧
    (∀ (m : Memory) (p : Prog ρ) (t : WriteTrans),
      runProg p (WriteTrans.new m) = .ok (t, .Abort) →
        writeAttempt m p = .ok (.done (dropTrans t) none)) ∧
    (∀ (m : Memory) (p : RProg ρ) (t : ReadTrans),
      runRProg p (ReadTrans.new m) = .ok (t, .Retry) →
        readAttempt m p =
          if t.is_abort then .ok (.loop t.mem) else .ok (.done t.mem none)) ∧
    (∀ (m : Memory) (p : RProg ρ) (t : ReadTrans),
      runRProg p (ReadTrans.new m) = .ok (t, .Abort) →
        readAttempt m p = .ok (.done t.mem none)) := by
  refine ⟨?_, ?_, ?_, ?_⟩
  · intro m p t h; unfold writeAttempt; simp only [h]
  · intro m p t h; unfold writeAttempt; simp only [h]
  · intro m p t h; unfold readAttempt; simp only [h]
  · intro m p t h; unfold readAttempt; simp only [h]

/-- C1 counterexample: the claim says a body result of `Retry` makes the
driver loop whether or not the transaction aborted.  Here a body returns
`Retry` on a fresh (non-aborted) transaction and `write_transaction` returns
`None` instead of looping. -/
theorem retry_without_abort_returns_none_cex :
    writeAttempt Memory.new (Prog.ret (STMResult.Retry : STMResult Nat)) =
      .ok (.done Memory.new none) ∧
    (WriteTrans.new Memory.new).is_abort = false :=
  ⟨rfl, rfl⟩

/-- Witness for the corrected C1 at a concrete input: fresh memory, body
`ret Retry`. -/
theorem retry_loops_only_on_abort_witness :
    writeAttempt Memory.new (Prog.ret (STMResult.Retry : STMResult Unit)) =
      (if (WriteTrans.new Memory.new).is_abort
        then .ok (.loop (dropTrans (WriteTrans.new Memory.new)))
        else .ok (.done (dropTrans (WriteTrans.new Memory.new)) none)) :=
  (@retry_loops_only_on_abort Unit).1 Memory.new (Prog.ret STMResult.Retry)
    (WriteTrans.new Memory.new) rfl

/-- C2 (corrected): a write transaction whose write set is empty when its body
returns `Ok` commits trivially (locking and the write-back are no-ops and the
fast path skips validation), but the commit DOES advance the global clock: the
unconditional fetch-and-add leaves the clock at `old + 1` (mod `2 ^ 64`). -/
theorem empty_write_set_commit_advances_clock {ρ : Type} (m : Memory) (p : Prog ρ)
    (t : WriteTrans) (v : ρ)
    (h : runProg p (WriteTrans.new m) = .ok (t, .Ok v))
    (hab : t.is_abort = false) (hws : t.write_set = []) :
    writeAttempt m p =
      .ok (.done { m with global_clock := (m.global_clock + 1) % 2 ^ 64 } (some v)) := by
  obtain ⟨hm, hlk, hrv⟩ := runProg_pres p h
  simp only [WriteTrans.new] at hm hlk hrv
  unfold writeAttempt
  simp only [h, hab, Bool.false_eq_true, if_false]
  rw [commitPhase_emptyWS t v hws (by rw [hrv, hm]) hlk, hm]

/-- C2 counterexample: the claim says an empty-write-set commit does not
advance the clock.  On fresh memory (clock 0) a body that stores nothing and
returns `Ok 0` commits and leaves the clock at 1. -/
theorem empty_commit_bumps_clock_cex :
    writeAttempt Memory.new (Prog.ret (STMResult.Ok (0 : Nat))) =
      .ok (.done { Memory.new with global_clock := 1 } (some 0)) ∧
    Memory.new.global_clock = 0 ∧ (1 : Nat) ≠ 0 :=
  ⟨rfl, rfl, by decide⟩

/-- Witness for the corrected C2 at a concrete input: fresh memory, body
`ret (Ok 5)`. -/
theorem empty_write_set_commit_advances_clock_witness :
    writeAttempt Memory.new (Prog.ret (STMResult.Ok (5 : Nat))) =
      .ok (.done { Memory.new with global_clock := (Memory.new.global_clock + 1) % 2 ^ 64 }
        (some 5)) :=
  empty_write_set_commit_advances_clock Memory.new (Prog.ret (STMResult.Ok 5))
    (WriteTrans.new Memory.new) 5 rfl rfl rfl

/-- C3 (corrected): `store` checks exactly alignment.  A misaligned address
panics at the point of the call and records nothing; an aligned address is
always accepted and its mapping recorded in the write set — even when
`addr + STRIPE_SIZE` exceeds the memory size, so an out-of-range store is NOT
rejected at the point of the call. -/
theorem store_checks_alignment_only (t : WriteTrans) (addr : Nat) (s : Stripe) :
    (addr &&& (STRIPE_SIZE - 1) ≠ 0 → t.store addr s = .panic) ∧
    (addr &&& (STRIPE_SIZE - 1) = 0 →
      t.store addr s = .ok { t with write_set := wsInsert addr s t.write_set }) := by
  constructor
  · intro h; unfold WriteTrans.store; rw [if_pos h]
  · intro h; unfold WriteTrans.store; rw [if_neg (not_not_intro h)]

/-- C3 counterexample: the claim says an out-of-range address is rejected at
the point of the call and not recorded.  Address 512 is 8-aligned but out of
range (`512 + 8 > 512`); `store` succeeds and records the mapping. -/
theorem store_out_of_range_accepted_cex :
    (512 &&& (STRIPE_SIZE - 1) = 0) ∧ MEM_SIZE < 512 + STRIPE_SIZE ∧
    WriteTrans.store freshW 512 (List.replicate STRIPE_SIZE 1) =
      .ok { freshW with write_set := [(512, List.replicate STRIPE_SIZE 1)] } ∧
    wsLookup [(512, List.replicate STRIPE_SIZE 1)] 512 =
      some (List.replicate STRIPE_SIZE 1) :=
  ⟨by decide, by decide, rfl, rfl⟩

/-- Witness for the corrected C3 at concrete inputs: address 3 (misaligned)
panics, address 8 (aligned) is recorded. -/
theorem store_checks_alignment_only_witness :
    (3 &&& (STRIPE_SIZE - 1) ≠ 0) ∧
    WriteTrans.store freshW 3 (List.replicate STRIPE_SIZE 2) = .panic ∧
    WriteTrans.store freshW 8 (List.replicate STRIPE_SIZE 2) =
      .ok { freshW with
        write_set := wsInsert 8 (List.replicate STRIPE_SIZE 2) freshW.write_set } :=
  ⟨by decide,
   (store_checks_alignment_only freshW 3 (List.replicate STRIPE_SIZE 2)).1 (by decide),
   (store_checks_alignment_only freshW 8 (List.replicate STRIPE_SIZE 2)).2 (by decide)⟩

/-- C4 (confirmed): within a non-aborted write transaction, a `load` directly
after a `store` to the same address returns `Some` of the stored stripe, only
records the address in the read set, and is answered from the write set: the
transaction is universally quantified, so the result holds for every backing
buffer and every lock-word state — no memory read and no pre/post validation
can influence it (in particular the load can never abort). -/
theorem load_after_store_returns_buffered (t : WriteTrans) (addr : Nat) (s : Stripe)
    (t' : WriteTrans) (hab : t.is_abort = false) (hst : t.store addr s = .ok t') :
    t'.load addr = .ok (some s, { t' with read_set := rsInsert addr t'.read_set }) := by
  obtain ⟨hal, ht⟩ := store_pres hst
  subst ht
  unfold WriteTrans.load
  rw [if_neg (by simp [hab])]
  rw [if_neg (not_not_intro hal)]
  simp only [wsLookup_wsInsert_self]

/-- Witness for C4 at a concrete input: store `[1,…,8]` at address 0 on a
fresh transaction, then load address 0. -/
theorem load_after_store_returns_buffered_witness :
    WriteTrans.load { freshW with write_set := [(0, [1, 2, 3, 4, 5, 6, 7, 8])] } 0 =
      .ok (some [1, 2, 3, 4, 5, 6, 7, 8],
        { freshW with write_set := [(0, [1, 2, 3, 4, 5, 6, 7, 8])], read_set := [0] }) :=
  load_after_store_returns_buffered freshW 0 [1, 2, 3, 4, 5, 6, 7, 8]
    { freshW with write_set := [(0, [1, 2, 3, 4, 5, 6, 7, 8])] } rfl rfl

/-- C5 (confirmed): when the write set has been locked, the commit version is
`wv = 1 + prev` where `prev` is the global clock value just before the
fetch-and-add (locking left the clock untouched, so `prev` is also the clock
at the start of the commit path), and the read-set validation is executed if
and only if `wv ≠ read_ver + 1`: when `wv = read_ver + 1` the outcome is the
commit regardless of what `validate_read_set` would say, and otherwise the
outcome is decided by `validate_read_set`. -/
theorem commit_version_and_fast_path {ρ : Type} (tr : WriteTrans) (v : ρ)
    (tr1 : WriteTrans) (h : tr.lock_write_set = .ok (true, tr1)) :
    tr1.mem.global_clock = tr.mem.global_clock ∧
    tr1.read_ver = tr.read_ver ∧
    ((1 + tr1.mem.global_clock) % 2 ^ 64 = (tr1.read_ver + 1) % 2 ^ 64 →
      commitPhase tr v =
        commitResult { tr1 with mem := (tr1.mem.inc_global_clock).2 }
          ((1 + tr1.mem.global_clock) % 2 ^ 64) v) ∧
    ((1 + tr1.mem.global_clock) % 2 ^ 64 ≠ (tr1.read_ver + 1) % 2 ^ 64 →
      commitPhase tr v =
        match ({ tr1 with mem := (tr1.mem.inc_global_clock).2 } : WriteTrans).validate_read_set
          with
        | .panic => .panic
        | .ok true =>
          commitResult { tr1 with mem := (tr1.mem.inc_global_clock).2 }
            ((1 + tr1.mem.global_clock) % 2 ^ 64) v
        | .ok false =>
          .ok (.loop (dropTrans { tr1 with mem := (tr1.mem.inc_global_clock).2 }))) := by
  obtain ⟨hrv, _, _, _, hgc⟩ := lock_write_set_pres h
  refine ⟨hgc, hrv, ?_, ?_⟩
  · intro hc
    unfold commitPhase
    simp only [h, Memory.inc_global_clock]
    rw [if_pos hc]
  · intro hc
    unfold commitPhase
    simp only [h, Memory.inc_global_clock]
    rw [if_neg hc]

/-- Witness for C5 at concrete inputs: a fresh transaction (clock untouched,
fast path) and a transaction whose clock advanced to 5 since its read-version
was sampled (slow path). -/
theorem commit_version_and_fast_path_witness :
    freshW.lock_write_set = .ok (true, freshW) ∧
    commitPhase freshW (0 : Nat) =
      commitResult { freshW with mem := (freshW.mem.inc_global_clock).2 }
        ((1 + freshW.mem.global_clock) % 2 ^ 64) 0 ∧
    clockW.lock_write_set = .ok (true, clockW) ∧
    commitPhase clockW (0 : Nat) =
      (match ({ clockW with mem := (clockW.mem.inc_global_clock).2 }
          : WriteTrans).validate_read_set with
       | .panic => .panic
       | .ok true =>
         commitResult { clockW with mem := (clockW.mem.inc_global_clock).2 }
           ((1 + clockW.mem.global_clock) % 2 ^ 64) 0
       | .ok false =>
         .ok (.loop (dropTrans { clockW with mem := (clockW.mem.inc_global_clock).2 }))) :=
  ⟨rfl,
   (commit_version_and_fast_path freshW 0 freshW rfl).2.2.1 (by decide),
   rfl,
   (commit_version_and_fast_path clockW 0 clockW rfl).2.2.2 (by decide)⟩

/-- C6 (confirmed): a body returning `Abort` makes `write_transaction` return
`None` with the shared memory — byte buffer, every lock word (so every
stripe's version bits) and the global clock — exactly as before the attempt,
since no part of the commit protocol runs; moreover dropping any write
transaction releases every lock it still holds (bit 63 of each such lock word
is clear afterwards) while preserving the version bits of every lock word. -/
theorem abort_returns_none_memory_unchanged :
    (∀ (ρ : Type) (m : Memory) (p : Prog ρ) (t : WriteTrans),
      runProg p (WriteTrans.new m) = .ok (t, .Abort) →
        writeAttempt m p = .ok (.done m none)) ∧
    (∀ (t : WriteTrans) (idx : Nat),
      ((dropTrans t).lock_ver.getD idx 0) &&& ((1 <<< 63) - 1)
        = (t.mem.lock_ver.getD idx 0) &&& ((1 <<< 63) - 1)) ∧
    (∀ (t : WriteTrans) (a : Nat), a ∈ t.locked →
      ((dropTrans t).lock_ver.getD (a >>> t.mem.shift_size) 0) &&& (1 <<< 63) = 0) := by
  refine ⟨fun ρ m p t h => writeAttempt_abortResult m p t h, ?_, ?_⟩
  · intro t idx
    exact unlockFold_ver t.locked t.mem idx
  · intro t a h
    exact unlockFold_bit_mem t.locked t.mem a h

/-- Witness for C6 at concrete inputs: fresh memory with body `ret Abort`, and
a transaction holding the lock of stripe 0 (lock word `2 ^ 63 + 4`), whose
drop clears the lock bit and keeps the version bits. -/
theorem abort_returns_none_memory_unchanged_witness :
    writeAttempt Memory.new (Prog.ret (STMResult.Abort : STMResult Nat)) =
      .ok (.done Memory.new none) ∧
    ((dropTrans lockedW).lock_ver.getD 0 0) &&& ((1 <<< 63) - 1)
      = (lockedW.mem.lock_ver.getD 0 0) &&& ((1 <<< 63) - 1) ∧
    ((dropTrans lockedW).lock_ver.getD (0 >>> lockedW.mem.shift_size) 0) &&& (1 <<< 63)
      = 0 :=
  ⟨abort_returns_none_memory_unchanged.1 Nat Memory.new
    (Prog.ret STMResult.Abort) (WriteTrans.new Memory.new) rfl,
   abort_returns_none_memory_unchanged.2.1 lockedW 0,
   abort_returns_none_memory_unchanged.2.2 lockedW 0 (by decide)⟩

/-- C7 (corrected): `load` on a misaligned address fails loudly through the
alignment assertion — for every write or read transaction that has NOT
already marked itself aborted; in particular `load(3)` with `W = 8` panics on
a fresh transaction.  (An already-aborted transaction instead returns `None`
before the assertion runs, so the claim's "every transaction" is too
strong.) -/
theorem misaligned_load_panics_when_not_aborted (tw : WriteTrans) (tr : ReadTrans)
    (addr : Nat) (hal : addr &&& (STRIPE_SIZE - 1) ≠ 0) :
    (tw.is_abort = false → tw.load addr = .panic) ∧
    (tr.is_abort = false → tr.load addr = .panic) := by
  constructor
  · intro h; unfold WriteTrans.load; rw [if_neg (by simp [h]), if_pos hal]
  · intro h; unfold ReadTrans.load; rw [if_neg (by simp [h]), if_pos hal]

/-- C7 counterexample: the claim quantifies over every transaction, but a
transaction that already marked itself aborted returns `None` from
`load(3)` — it does not panic. -/
theorem aborted_misaligned_load_no_panic_cex :
    (3 &&& (STRIPE_SIZE - 1) ≠ 0) ∧
    WriteTrans.load { freshW with is_abort := true } 3 =
      .ok (none, { freshW with is_abort := true }) ∧
    WriteTrans.load { freshW with is_abort := true } 3 ≠ .panic :=
  ⟨by decide, rfl, by decide⟩

/-- Witness for the corrected C7 at concrete inputs: `load(3)` panics on a
fresh write transaction and on a fresh read transaction. -/
theorem misaligned_load_panics_witness :
    (3 &&& (STRIPE_SIZE - 1) ≠ 0) ∧
    WriteTrans.load freshW 3 = .panic ∧
    ReadTrans.load (ReadTrans.new Memory.new) 3 = .panic :=
  ⟨by decide,
   (misaligned_load_panics_when_not_aborted freshW (ReadTrans.new Memory.new) 3
     (by decide)).1 rfl,
   (misaligned_load_panics_when_not_aborted freshW (ReadTrans.new Memory.new) 3
     (by decide)).2 rfl⟩

/-- C9 (confirmed): once a write or read transaction has marked itself
aborted, every `load` — at any address, aligned or not, in range or not —
returns `None` immediately and returns the transaction completely unchanged
(read set, write set and memory untouched), before the alignment assertion
can run. -/
theorem aborted_load_returns_none (tw : WriteTrans) (tr : ReadTrans) (addr : Nat) :
    (tw.is_abort = true → tw.load addr = .ok (none, tw)) ∧
    (tr.is_abort = true → tr.load addr = .ok (none, tr)) := by
  constructor
  · intro h; unfold WriteTrans.load; rw [if_pos h]
  · intro h; unfold ReadTrans.load; rw [if_pos h]

/-- Witness for C9 at a concrete input: an aborted transaction and the
misaligned (and otherwise panicking) address 3. -/
theorem aborted_load_returns_none_witness :
    WriteTrans.load { freshW with is_abort := true } 3 =
      .ok (none, { freshW with is_abort := true }) ∧
    ReadTrans.load { ReadTrans.new Memory.new with is_abort := true } 3 =
      .ok (none, { ReadTrans.new Memory.new with is_abort := true }) :=
  ⟨(aborted_load_returns_none { freshW with is_abort := true }
      { ReadTrans.new Memory.new with is_abort := true } 3).1 rfl,
   (aborted_load_returns_none { freshW with is_abort := true }
      { ReadTrans.new Memory.new with is_abort := true } 3).2 rfl⟩

/-- C10 (confirmed): construction takes no size parameters and cannot fail
(`Memory.new` / `STM.new` are total and parameterless): the buffer is 512
zero bytes, the stripe width is the fixed 8, there are exactly 64 lock words,
each 0 (unlocked, version 0), the global clock is 0, and the shift is 3 with
`8 = 1 <<< 3`; the memory size is a multiple of the stripe width, so the
spec's construction failure conditions cannot arise through the public
interface. -/
theorem construction_is_fixed_512_8 :
    Memory.new.mem = List.replicate 512 0 ∧
    Memory.new.mem.length = 512 ∧
    Memory.new.lock_ver = List.replicate 64 0 ∧
    Memory.new.global_clock = 0 ∧
    Memory.new.shift_size = 3 ∧
    STRIPE_SIZE = 8 ∧ MEM_SIZE = 512 ∧
    STRIPE_SIZE = 1 <<< Memory.new.shift_size ∧
    MEM_SIZE % STRIPE_SIZE = 0 ∧
    Memory.new.lock_ver.length = MEM_SIZE / STRIPE_SIZE ∧
    STM.new.mem = Memory.new := by
  refine ⟨rfl, ?_, rfl, rfl, rfl, rfl, rfl, rfl, by decide, ?_, rfl⟩
  · rw [show Memory.new.mem = List.replicate 512 0 from rfl, List.length_replicate]
  · rw [show Memory.new.lock_ver = List.replicate 64 0 from rfl, List.length_replicate]
    decide

end TL2
